import Mathlib

/-!
Verification of the classification and faceted-grouping engine of the
patent-download-ui repository.

The JavaScript sources `src/dataProcessor.js` and
`src/PatentDownloadInterface.js` are shallowly embedded below.  Strings are
modelled as `List Char` (`Str`); JavaScript's `String.prototype.includes`,
`startsWith`, `split`, `toLowerCase`/`toUpperCase` (on the ASCII identifiers
this program handles) and the two regular expressions appearing in the code
(`/^(g|pg)_/` and `/_(\d{4})$/`) are given explicit executable definitions.
JavaScript objects used as string-keyed dictionaries (the taxonomy) are
modelled as association lists in key-insertion order, matching the
`Object.keys` enumeration order for non-numeric keys.
-/

/-- Strings are lists of characters. -/
abbrev Str := List Char

/-- Convert a Lean string literal to the `Str` model. -/
def str (s : String) : Str := s.data

/-- Test `isPrefL p s`: `p` is a prefix of `s` (character-wise). -/
def isPrefL : Str → Str → Bool
  | [], _ => true
  | _ :: _, [] => false
  | c :: t, d :: u => c == d && isPrefL t u

/-- Test `isInfixL sub s`: `sub` occurs contiguously inside `s`. -/
def isInfixL : Str → Str → Bool
  | sub, [] => isPrefL sub []
  | sub, c :: t => isPrefL sub (c :: t) || isInfixL sub t

/-- JavaScript `s.includes(sub)`. -/
def strIncludes (s sub : Str) : Bool := isInfixL sub s

/-- JavaScript `s.startsWith(p)`. -/
def strStartsWith (s p : Str) : Bool := isPrefL p s

/-- ASCII lower-casing of one character (JS `toLowerCase` on ASCII data). -/
def lowC (c : Char) : Char :=
  if 65 ≤ c.toNat ∧ c.toNat ≤ 90 then Char.ofNat (c.toNat + 32) else c

/-- ASCII upper-casing of one character (JS `toUpperCase` on ASCII data). -/
def upC (c : Char) : Char :=
  if 97 ≤ c.toNat ∧ c.toNat ≤ 122 then Char.ofNat (c.toNat - 32) else c

/-- JavaScript `s.toLowerCase()` (ASCII). -/
def lowStr (s : Str) : Str := s.map lowC

/-- The regular-expression class `\d`, i.e. the characters `0`–`9`. -/
def isDigitC (c : Char) : Bool := 48 ≤ c.toNat && c.toNat ≤ 57

/-- JavaScript `s.split('_')` (split on every underscore, keeping empty
pieces, result never empty). -/
def splitU : Str → List Str
  | [] => [[]]
  | c :: t =>
    match splitU t with
    | [] => [[]]
    | w :: ws => if c = '_' then [] :: w :: ws else (c :: w) :: ws

/-- JS `word.charAt(0).toUpperCase() + word.slice(1)`. -/
def capFirst : Str → Str
  | [] => []
  | c :: t => upC c :: t

/-- JavaScript `words.join(' ')` (for a non-empty list of words). -/
def joinSp : List Str → Str
  | [] => []
  | [w] => w
  | w :: ws => w ++ ' ' :: joinSp ws

/-- JavaScript `s.replace(/_/g, ' ')`. -/
def replUnders (s : Str) : Str := s.map (fun c => if c = '_' then ' ' else c)

/-- Case-insensitive prefix test (ASCII), used for the `'i'` regex flag. -/
def ciPrefixL : Str → Str → Bool
  | [], _ => true
  | _ :: _, [] => false
  | c :: t, d :: u => lowC c == lowC d && ciPrefixL t u

/-- JavaScript `s.replace(new RegExp(abbr, 'i'), abbr)` for a plain literal
`abbr`: replace the first case-insensitive occurrence of `abbr` in `s` by
`abbr`; if there is none, return `s` unchanged. -/
def replaceFirstCI (abbr : Str) : Str → Str
  | [] => []
  | c :: t =>
    if ciPrefixL abbr (c :: t) then abbr ++ List.drop abbr.length (c :: t)
    else c :: replaceFirstCI abbr t

/-- Decimal value of a digit character. -/
def digitV (c : Char) : Nat := c.toNat - 48

/-- Numeric value of a digit string, modelling JavaScript's numeric coercion
of the year strings inside the sort comparator `(a, b) => b - a`. -/
def natVal : Str → Nat
  | [] => 0
  | c :: t => digitV c * 10 ^ t.length + natVal t

/-- Insertion-order deduplication, modelling `Array.from(new Set(...))`
built by successive `add` calls: the first occurrence of each element is
kept, in encounter order. -/
def dedupF {α : Type} [DecidableEq α] : List α → List α
  | [] => []
  | a :: t => a :: dedupF (t.filter (fun b => decide (b ≠ a)))
termination_by l => l.length
decreasing_by
  simp_wf
  exact Nat.lt_succ_of_le (List.length_filter_le _ _)

/-! ## Data model -/

/-- Patent type, derived from the identifier prefix. -/
inductive PatentType where
  | granted
  | pregrant
deriving DecidableEq, Repr

/-- One raw dataset descriptor (the fields the core logic reads). -/
structure RawItem where
  table_name : Str
  description : Str
deriving DecidableEq, Repr

/-- A descriptor extended with the classification fields computed by
`categorizeItem`. -/
structure ClassifiedItem where
  table_name : Str
  description : Str
  displayName : Str
  type : PatentType
  category : Str
  contentType : Option Str
  year : Option Str
deriving DecidableEq, Repr

/-! ## Category-name constants -/

def contentK : Str := str "Content"
def peopleK : Str := str "People"
def geographyK : Str := str "Geography"
def classificationK : Str := str "Classification"
def citationsK : Str := str "Citations"
def governmentK : Str := str "Government"
def legalK : Str := str "Legal"
def mappingK : Str := str "Mapping"
def otherDocK : Str := str "Other Documentation"
def generalK : Str := str "General"
def otherK : Str := str "Other"
def essentialsK : Str := str "Essentials"
def allK : Str := str "all"

/-! ## Shared classifier helpers

Both copies of `categorizeItem` (the one exported from `dataProcessor.js`
and the one defined inside the `PatentDownloadInterface` component) compute
the content type, patent type, year and display name with literally
identical code; those parts are embedded once and shared. -/

/-- The content-type if/else chain common to both `categorizeItem`s. -/
def contentTypeOf (name : Str) : Option Str :=
  if strIncludes name (str "brf_sum_text_") then some (str "Brief Summary")
  else if strIncludes name (str "claims_") then some (str "Claims")
  else if strIncludes name (str "detail_desc_text_") then some (str "Detailed Description")
  else if strIncludes name (str "draw_desc_text_") then some (str "Drawing Description")
  else if strIncludes name (str "abstract") then some (str "Abstract")
  else none

/-- Embedding of `name.match(/_(\d{4})$/)`: the match succeeds exactly when the
identifier ends in an underscore followed by exactly four digits, and the
captured group is those four digits. -/
def trailingYear (name : Str) : Option Str :=
  match name.reverse with
  | d1 :: d2 :: d3 :: d4 :: '_' :: _ =>
    if isDigitC d1 && isDigitC d2 && isDigitC d3 && isDigitC d4 then
      some [d4, d3, d2, d1]
    else none
  | _ => none

/-- Embedding of `name.replace(/^(g|pg)_/, '')`: the anchored regex strips a leading
`g_` or `pg_` (the two cases are mutually exclusive, so the alternation
order is immaterial). -/
def stripPre (name : Str) : Str :=
  if strStartsWith name (str "g_") then name.drop 2
  else if strStartsWith name (str "pg_") then name.drop 3
  else name

/-- The display-name computation inside both `categorizeItem`s:
strip the prefix, split on `_`, capitalize each word, join with spaces,
then replace remaining underscores by spaces. -/
def rawDisplayName (name : Str) : Str :=
  replUnders (joinSp ((splitU (stripPre name)).map capFirst))

/-- Embedding of `name.startsWith('pg_') ? 'pregrant' : 'granted'`. -/
def patentTypeOf (name : Str) : PatentType :=
  if strStartsWith name (str "pg_") then .pregrant else .granted

/-- The year field: computed only when a content type was assigned. -/
def yearOf (name : Str) : Option Str → Option Str
  | some _ => trailingYear name
  | none => none

namespace DataProcessor

/-- The functional-area chain of `dataProcessor.js`'s `categorizeItem`
(rules applied only when no content type matched).  Note that this copy
has no `patent`/`application` rule and no `Other` fallback: the final
`else` assigns `General`. -/
def faCategory (name : Str) : Str :=
  if strIncludes name (str "inventor") || strIncludes name (str "attorney") ||
     strIncludes name (str "lawyer") || strIncludes name (str "assignee") ||
     strIncludes name (str "applicant") || strIncludes name (str "examiner") then peopleK
  else if strIncludes name (str "location") || strIncludes name (str "geography") then geographyK
  else if strIncludes name (str "cpc") || strIncludes name (str "uspc") ||
     strIncludes name (str "ipc") || strIncludes name (str "wipo") then classificationK
  else if strIncludes name (str "citation") || strIncludes name (str "reference") then citationsK
  else if strIncludes name (str "gov_interest") || strIncludes name (str "federal") then governmentK
  else if strIncludes name (str "priority") || strIncludes name (str "rel_") ||
     strIncludes name (str "term") || strIncludes name (str "pct") then legalK
  else if strIncludes name (str "persistent") || strIncludes name (str "crosswalk") ||
     strIncludes name (str "granted_pgpubs") then mappingK
  else if strIncludes name (str "figures") || strIncludes name (str "botanic") then otherDocK
  else generalK

/-- The function `categorizeItem` as exported from `dataProcessor.js`. -/
def categorizeItem (item : RawItem) : ClassifiedItem :=
  let name := item.table_name
  let contentType := contentTypeOf name
  let category := if contentType.isSome then contentK else faCategory name
  { table_name := item.table_name
    description := item.description
    displayName := rawDisplayName name
    type := patentTypeOf name
    category := category
    contentType := contentType
    year := yearOf name contentType }

end DataProcessor

namespace Interface

/-- The functional-area chain of the component's `categorizeItem`
(rules 1–8, then `patent`/`application` → General, else Other). -/
def faCategory (name : Str) : Str :=
  if strIncludes name (str "inventor") || strIncludes name (str "attorney") ||
     strIncludes name (str "lawyer") || strIncludes name (str "assignee") ||
     strIncludes name (str "applicant") || strIncludes name (str "examiner") then peopleK
  else if strIncludes name (str "location") || strIncludes name (str "geography") then geographyK
  else if strIncludes name (str "cpc") || strIncludes name (str "uspc") ||
     strIncludes name (str "ipc") || strIncludes name (str "wipo") then classificationK
  else if strIncludes name (str "citation") || strIncludes name (str "reference") then citationsK
  else if strIncludes name (str "gov_interest") || strIncludes name (str "federal") then governmentK
  else if strIncludes name (str "priority") || strIncludes name (str "rel_") ||
     strIncludes name (str "term") || strIncludes name (str "pct") then legalK
  else if strIncludes name (str "persistent") || strIncludes name (str "crosswalk") ||
     strIncludes name (str "granted_pgpubs") then mappingK
  else if strIncludes name (str "figures") || strIncludes name (str "botanic") then otherDocK
  else if strIncludes name (str "patent") || strIncludes name (str "application") then generalK
  else otherK

/-- The function `categorizeItem` as defined inside the `PatentDownloadInterface`
component. -/
def categorizeItem (item : RawItem) : ClassifiedItem :=
  let name := item.table_name
  let contentType := contentTypeOf name
  let category := if contentType.isSome then contentK else faCategory name
  { table_name := item.table_name
    description := item.description
    displayName := rawDisplayName name
    type := patentTypeOf name
    category := category
    contentType := contentType
    year := yearOf name contentType }

/-- The function `formatDisplayName`: one case-insensitive first-occurrence replacement
per abbreviation, applied in the fixed order of the list. -/
def formatDisplayName (name : Str) : Str :=
  [str "PCT", str "WIPO", str "CPC", str "IPC", str "USPC", str "US"].foldl
    (fun d abbr => replaceFirstCI abbr d) name

end Interface


/-! ## Aggregator, disambiguation splitter -/

/-- A category bucket: a plain array, or the `{disambiguated, raw, main}`
object produced by `organizeByDisambiguation` (an absent `main` property is
modelled as the empty list; the code only ever creates `main` to push into
it, and every later consumer treats an absent `main` exactly like an empty
one). -/
inductive Bucket where
  | flat (items : List ClassifiedItem)
  | grouped (disambiguated raw main : List ClassifiedItem)
deriving DecidableEq, Repr

/-- The result record of `organizeByDisambiguation`. -/
structure OrgResult where
  disambiguated : List ClassifiedItem
  raw : List ClassifiedItem
  main : List ClassifiedItem
deriving DecidableEq, Repr

/-- One step of the `items.forEach` loop in `organizeByDisambiguation`. -/
def orgStep (acc : OrgResult) (item : ClassifiedItem) : OrgResult :=
  if strIncludes item.table_name (str "_not_disambiguated") then
    { acc with raw := acc.raw ++ [item] }
  else if strIncludes item.table_name (str "_disambiguated") then
    { acc with disambiguated := acc.disambiguated ++ [item] }
  else
    { acc with main := acc.main ++ [item] }

/-- The function `organizeByDisambiguation` of `PatentDownloadInterface.js`. -/
def organizeByDisambiguation (items : List ClassifiedItem) : OrgResult :=
  items.foldl orgStep ⟨[], [], []⟩

/-- Per-patent-type taxonomy while `processData` populates it: categories
to arrays, in key-insertion order. -/
abbrev CatListF := List (Str × List ClassifiedItem)

/-- Per-patent-type taxonomy after the disambiguation pass. -/
abbrev CatList := List (Str × Bucket)

/-- The `result[type][category]` creation-on-first-use plus `push`. -/
def insertCat : CatListF → Str → ClassifiedItem → CatListF
  | [], k, x => [(k, [x])]
  | (k', l) :: t, k, x =>
    if k' = k then (k', l ++ [x]) :: t else (k', l) :: insertCat t k x

/-- The fixed allow-list of essential identifiers in `processData`. -/
def essentialFiles : List Str :=
  [str "g_assignee_disambiguated",
   str "g_inventor_disambiguated",
   str "g_cpc_at_issue",
   str "g_location_disambiguated",
   str "g_us_patent_citation",
   str "g_application",
   str "g_patent",
   str "pg_assignee_disambiguated",
   str "pg_inventor_disambiguated",
   str "pg_cpc_at_issue",
   str "pg_location_disambiguated",
   str "pg_published_application"]

/-- The two per-type alists under construction. -/
structure Taxo1 where
  granted : CatListF
  pregrant : CatListF
deriving DecidableEq, Repr

/-- One step of the `categorizedItems.forEach` loop of `processData`:
push into the natural category, then also into Essentials when the
identifier is on the allow-list. -/
def addItem (acc : Taxo1) (x : ClassifiedItem) : Taxo1 :=
  let upd : CatListF → CatListF := fun al =>
    let al1 := insertCat al x.category x
    if essentialFiles.contains x.table_name then insertCat al1 essentialsK x else al1
  match x.type with
  | .granted => { acc with granted := upd acc.granted }
  | .pregrant => { acc with pregrant := upd acc.pregrant }

/-- Population phase of `processData` (Essentials initialized eagerly for
both patent types). -/
def phase1 (items : List ClassifiedItem) : Taxo1 :=
  items.foldl addItem ⟨[(essentialsK, [])], [(essentialsK, [])]⟩

/-- The disambiguation pass of `processData` applied to one category
entry: for `People`/`Geography` with a non-empty array, replace the array
by the organized structure when its `disambiguated` or `raw` sub-array is
non-empty. -/
def bucketize (k : Str) (l : List ClassifiedItem) : Bucket :=
  if (k = peopleK ∨ k = geographyK) ∧ l ≠ [] then
    let o := organizeByDisambiguation l
    if o.disambiguated ≠ [] ∨ o.raw ≠ [] then .grouped o.disambiguated o.raw o.main
    else .flat l
  else .flat l

/-- The disambiguation pass over a whole per-type alist (keys are unique,
so the per-key in-place replacement is a map over the entries). -/
def finalize (al : CatListF) : CatList := al.map (fun e => (e.1, bucketize e.1 e.2))

/-- The final taxonomy. -/
structure Taxo where
  granted : CatList
  pregrant : CatList
deriving DecidableEq, Repr

/-- Embedding of `data[type]`. -/
def taxoGet (t : Taxo) : PatentType → CatList
  | .granted => t.granted
  | .pregrant => t.pregrant

/-- The function `processData` of `PatentDownloadInterface.js`. -/
def processData (rawData : List RawItem) : Taxo :=
  let t1 := phase1 (rawData.map Interface.categorizeItem)
  ⟨finalize t1.granted, finalize t1.pregrant⟩

/-- Items of a bucket (for a grouped bucket: the three sub-arrays). -/
def bucketItems : Bucket → List ClassifiedItem
  | .flat l => l
  | .grouped d r m => d ++ r ++ m

/-- The per-category count used by `getTotalFiles`/`getCategoriesWithCounts`:
array length for a flat bucket, sum of the three sub-array lengths for a
grouped one. -/
def bucketCount : Bucket → Nat
  | .flat l => l.length
  | .grouped d r m => d.length + r.length + m.length

/-- Is the bucket a plain array?  (`Array.isArray` in the code.) -/
def isFlatB : Bucket → Bool
  | .flat _ => true
  | .grouped _ _ _ => false

/-! ## Filter engine -/

/-- The text predicate of `filterData`:
`displayName.toLowerCase().includes(search.toLowerCase()) ||
 description.toLowerCase().includes(search.toLowerCase())`. -/
def matchesSearch (search : Str) (item : ClassifiedItem) : Bool :=
  strIncludes (lowStr item.displayName) (lowStr search) ||
  strIncludes (lowStr item.description) (lowStr search)

/-- The body of the `Object.keys(...).forEach` loop of `filterData`,
over the entries of the active tab's alist. -/
def filterCats (al : CatList) (search yearFilter contentTypeFilter : Str) : CatList :=
  match al with
  | [] => []
  | (k, .grouped d r m) :: t =>
    (k, .grouped (d.filter (matchesSearch search)) (r.filter (matchesSearch search))
        (m.filter (matchesSearch search))) :: filterCats t search yearFilter contentTypeFilter
  | (k, .flat l) :: t =>
    (k, .flat (l.filter (fun item =>
        matchesSearch search item &&
        (if yearFilter ≠ allK ∧ k = contentK then decide (item.year = some yearFilter) else true) &&
        (if contentTypeFilter ≠ allK ∧ k = contentK then
           decide (item.contentType = some contentTypeFilter) else true)))) ::
      filterCats t search yearFilter contentTypeFilter

/-- The function `filterData` of `PatentDownloadInterface.js` (reading the component
state as explicit arguments). -/
def filterData (data : Taxo) (activeTab : PatentType)
    (search yearFilter contentTypeFilter : Str) : CatList :=
  filterCats (taxoGet data activeTab) search yearFilter contentTypeFilter

/-! ## Facet indexer -/

/-- Property lookup on a string-keyed object. -/
def lookupK (k : Str) : CatList → Option Bucket
  | [] => none
  | (k', b) :: t => if k' = k then some b else lookupK k t

/-- Relation `yearGe a b`: the descending numeric comparison `(a, b) => b - a`
reports `a` not after `b`. -/
def yearGe (a b : Str) : Prop := natVal b ≤ natVal a

instance : DecidableRel yearGe := fun _ _ => Nat.decLe _ _

instance : IsTotal Str yearGe := ⟨fun a b => (Nat.le_total (natVal b) (natVal a)).imp id id⟩

instance : IsTrans Str yearGe := ⟨fun _ _ _ h1 h2 => Nat.le_trans h2 h1⟩

/-- Embedding of `Array.from(years).sort((a, b) => b - a)`: a stable sort under the
descending numeric comparator. -/
def sortYearsDesc (l : List Str) : List Str := List.insertionSort yearGe l

/-- The function `getYearsForContentType` of `PatentDownloadInterface.js`.  The `Set` is
modelled by `dedupF`; the guard `item.year && (ct === 'all' ||
item.contentType === ct)` keeps truthy years passing the content-type
facet.  (The code reads `.Content` with `forEach`, which presupposes the
Content bucket is a plain array — true of every taxonomy `processData`
builds.) -/
def getYearsForContentType (data : Taxo) (activeTab : PatentType) (contentType : Str) : List Str :=
  match lookupK contentK (taxoGet data activeTab) with
  | some (.flat l) =>
    sortYearsDesc (dedupF (l.filterMap (fun item =>
      match item.year with
      | some y => if y ≠ [] ∧ (contentType = allK ∨ item.contentType = some contentType)
                  then some y else none
      | none => none)))
  | _ => []

/-! ## Category ordering -/

/-- The fixed display priority of categories. -/
def categoryOrder : List Str :=
  [essentialsK, generalK, peopleK, classificationK, legalK, governmentK,
   geographyK, otherDocK, citationsK, mappingK, otherK, contentK]

/-- Sort key of a category name: its index in `categoryOrder`, with
`categoryOrder.length = 12` for names not on the list.  The comparator of
`sortCategories` maps `indexOf = -1` to "after everything listed" and
treats two unlisted names as equal, which is exactly comparison of this
key. -/
def catIdx (n : Str) : Nat := categoryOrder.indexOf n

/-- The comparator order of `sortCategories`. -/
def catLe (a b : Str × Nat) : Prop := catIdx a.1 ≤ catIdx b.1

instance : DecidableRel catLe := fun _ _ => Nat.decLe _ _

instance : IsTotal (Str × Nat) catLe := ⟨fun a b => (Nat.le_total (catIdx a.1) (catIdx b.1)).imp id id⟩

instance : IsTrans (Str × Nat) catLe := ⟨fun _ _ _ h1 h2 => Nat.le_trans h1 h2⟩

/-- The function `sortCategories`: a stable sort under the priority comparator. -/
def sortCategories (l : List (Str × Nat)) : List (Str × Nat) :=
  List.insertionSort catLe l

/-- The function `getCategoriesWithCounts`: name/count pairs of the filtered view,
zero counts dropped, sorted by display priority. -/
def getCategoriesWithCounts (filteredData : CatList) : List (Str × Nat) :=
  sortCategories
    ((filteredData.map (fun e => (e.1, bucketCount e.2))).filter (fun e => decide (0 < e.2)))


/-! ## Claim-side definitions

These follow the wording of the specification's claims; the theorems below
relate them to the embedded code. -/

/-- The five content-type patterns in their fixed testing order. -/
def ctPatterns : List (Str × Str) :=
  [(str "brf_sum_text_", str "Brief Summary"),
   (str "claims_", str "Claims"),
   (str "detail_desc_text_", str "Detailed Description"),
   (str "draw_desc_text_", str "Drawing Description"),
   (str "abstract", str "Abstract")]

/-- First pattern of `ctPatterns` occurring in the identifier, in order. -/
def ctFirstMatch (n : Str) : Option Str :=
  (ctPatterns.find? (fun p => strIncludes n p.1)).map Prod.snd

/-- The identifier matches some content-type pattern. -/
def matchesContentPat (n : Str) : Bool :=
  strIncludes n (str "brf_sum_text_") || strIncludes n (str "claims_") ||
  strIncludes n (str "detail_desc_text_") || strIncludes n (str "draw_desc_text_") ||
  strIncludes n (str "abstract")

/-- The identifier matches one of the functional-area rules 1–8. -/
def matchesFA18 (n : Str) : Bool :=
  (strIncludes n (str "inventor") || strIncludes n (str "attorney") ||
   strIncludes n (str "lawyer") || strIncludes n (str "assignee") ||
   strIncludes n (str "applicant") || strIncludes n (str "examiner")) ||
  (strIncludes n (str "location") || strIncludes n (str "geography")) ||
  (strIncludes n (str "cpc") || strIncludes n (str "uspc") ||
   strIncludes n (str "ipc") || strIncludes n (str "wipo")) ||
  (strIncludes n (str "citation") || strIncludes n (str "reference")) ||
  (strIncludes n (str "gov_interest") || strIncludes n (str "federal")) ||
  (strIncludes n (str "priority") || strIncludes n (str "rel_") ||
   strIncludes n (str "term") || strIncludes n (str "pct")) ||
  (strIncludes n (str "persistent") || strIncludes n (str "crosswalk") ||
   strIncludes n (str "granted_pgpubs")) ||
  (strIncludes n (str "figures") || strIncludes n (str "botanic"))

/-- Claim C4's routing predicate for the raw sub-bucket: identifier
contains `_not_disambiguated`. -/
def rawP (item : ClassifiedItem) : Bool :=
  strIncludes item.table_name (str "_not_disambiguated")

/-- Claim C4's routing predicate for the disambiguated sub-bucket:
not routed to raw, and identifier contains `_disambiguated`. -/
def disP (item : ClassifiedItem) : Bool :=
  !rawP item && strIncludes item.table_name (str "_disambiguated")

/-- Claim C4's routing predicate for the main sub-bucket: neither of the
two markers occurs. -/
def mainP (item : ClassifiedItem) : Bool :=
  !strIncludes item.table_name (str "_not_disambiguated") &&
  !strIncludes item.table_name (str "_disambiguated")

/-- Claim C3's description of per-bucket filtering: a grouped bucket is
filtered sub-sequence-wise by the text predicate only; a flat bucket by the
text predicate and, only for the `Content` category, by year equality
(skipped for the `all` sentinel) and content-type equality (skipped for
`all`). -/
def claimFilterBucket (search yearFilter contentTypeFilter k : Str) : Bucket → Bucket
  | .grouped d r m =>
    .grouped (d.filter (matchesSearch search)) (r.filter (matchesSearch search))
      (m.filter (matchesSearch search))
  | .flat l =>
    .flat (l.filter (fun item =>
      matchesSearch search item &&
      (if k = contentK then
        (decide (yearFilter = allK) || decide (item.year = some yearFilter)) &&
        (decide (contentTypeFilter = allK) || decide (item.contentType = some contentTypeFilter))
       else true)))

/-- Claim C5's description of the display-name pipeline: strip the prefix,
split on underscores, capitalize each word, join with single spaces, then
replace the first case-insensitive occurrence of each acronym, in order,
without re-scanning. -/
def claimFormat (name : Str) : Str :=
  [str "PCT", str "WIPO", str "CPC", str "IPC", str "USPC", str "US"].foldl
    (fun d abbr => replaceFirstCI abbr d)
    (joinSp ((splitU (stripPre name)).map capFirst))

/-- All items of the non-Essentials buckets of a population-phase alist,
in bucket order. -/
def flatNE (al : CatListF) : List ClassifiedItem :=
  ((al.filter (fun e => decide (¬ e.1 = essentialsK))).map (fun e => e.2)).flatten

/-- All items of the non-Essentials buckets of a finished alist. -/
def flatNEB (al : CatList) : List ClassifiedItem :=
  ((al.filter (fun e => decide (¬ e.1 = essentialsK))).map (fun e => bucketItems e.2)).flatten

/-- The projection `result[type]` during population. -/
def t1Get (t : Taxo1) : PatentType → CatListF
  | .granted => t.granted
  | .pregrant => t.pregrant

/-- Truthiness and well-formedness of a `year` field: it is absent, or a
four-digit string. -/
def contentYearOK : Option Str → Bool
  | none => true
  | some y => decide (y.length = 4) && y.all isDigitC

/-- Concrete Content items for the `years_for_all_content_types` witness. -/
def sampleContentItems : List ClassifiedItem :=
  [Interface.categorizeItem ⟨str "g_claims_2019", []⟩,
   Interface.categorizeItem ⟨str "g_claims_2020", []⟩]

/-- Concrete taxonomy for the `years_for_all_content_types` witness. -/
def sampleTaxo : Taxo := ⟨[(contentK, .flat sampleContentItems)], []⟩

/-! ## Sanity checks on concrete inputs -/

example : Interface.categorizeItem ⟨str "pg_claims_2020", []⟩ =
    { table_name := str "pg_claims_2020", description := []
      displayName := str "Claims 2020", type := .pregrant
      category := contentK, contentType := some (str "Claims")
      year := some (str "2020") } := by decide

example : (Interface.categorizeItem ⟨str "g_inventor_disambiguated", []⟩).category = peopleK := by decide
example : (Interface.categorizeItem ⟨str "g_inventor_disambiguated", []⟩).displayName =
    str "Inventor Disambiguated" := by decide
example : (Interface.categorizeItem ⟨str "zz", []⟩).category = otherK := by decide
example : (DataProcessor.categorizeItem ⟨str "zz", []⟩).category = generalK := by decide
example : Interface.formatDisplayName (str "Pct Data") = str "PCT Data" := by decide
example : Interface.formatDisplayName (str "Uspc Classification") = str "USPC Classification" := by decide

example : processData [⟨str "g_inventor_disambiguated", []⟩, ⟨str "g_inventor_not_disambiguated", []⟩] =
    ⟨[(essentialsK, .flat [Interface.categorizeItem ⟨str "g_inventor_disambiguated", []⟩]),
      (peopleK, .grouped [Interface.categorizeItem ⟨str "g_inventor_disambiguated", []⟩]
        [Interface.categorizeItem ⟨str "g_inventor_not_disambiguated", []⟩] [])],
     [(essentialsK, .flat [])]⟩ := by decide

example : getCategoriesWithCounts
    [(contentK, .flat [Interface.categorizeItem ⟨str "g_claims_2019", []⟩]),
     (peopleK, .grouped [] [] []),
     (generalK, .flat [Interface.categorizeItem ⟨str "g_patent", []⟩])] =
    [(generalK, 1), (contentK, 1)] := by decide

/-! ## Lemmas and claim theorems -/

lemma interface_faCategory_ne_contentK (n : Str) : Interface.faCategory n ≠ contentK := by
  unfold Interface.faCategory
  split_ifs <;> decide

lemma dataProcessor_faCategory_ne_contentK (n : Str) : DataProcessor.faCategory n ≠ contentK := by
  unfold DataProcessor.faCategory
  split_ifs <;> decide

lemma contentTypeOf_eq_ctFirstMatch (n : Str) : contentTypeOf n = ctFirstMatch n := by
  unfold contentTypeOf ctFirstMatch ctPatterns
  by_cases h1 : strIncludes n (str "brf_sum_text_")
  · simp [h1]
  · by_cases h2 : strIncludes n (str "claims_")
    · simp [h1, h2]
    · by_cases h3 : strIncludes n (str "detail_desc_text_")
      · simp [h1, h2, h3]
      · by_cases h4 : strIncludes n (str "draw_desc_text_")
        · simp [h1, h2, h3, h4]
        · by_cases h5 : strIncludes n (str "abstract")
          · simp [h1, h2, h3, h4, h5]
          · simp [h1, h2, h3, h4, h5]

/-- Claim C2: the content type is the first of the five patterns, in their
fixed order, occurring in the identifier; the category is `Content` exactly
when a content type was assigned; and the year is the trailing
underscore-plus-four-digits suffix when a content type was assigned (and a
suffix exists), and stays unset otherwise — in particular the year is never
set without a content type.  This holds for both copies of
`categorizeItem`. -/
theorem contentType_category_year_spec (item : RawItem) :
    ((Interface.categorizeItem item).contentType = ctFirstMatch item.table_name ∧
     ((Interface.categorizeItem item).category = contentK ↔
       (Interface.categorizeItem item).contentType.isSome = true) ∧
     (Interface.categorizeItem item).year =
       (if (Interface.categorizeItem item).contentType.isSome then
          trailingYear item.table_name else none)) ∧
    ((DataProcessor.categorizeItem item).contentType = ctFirstMatch item.table_name ∧
     ((DataProcessor.categorizeItem item).category = contentK ↔
       (DataProcessor.categorizeItem item).contentType.isSome = true) ∧
     (DataProcessor.categorizeItem item).year =
       (if (DataProcessor.categorizeItem item).contentType.isSome then
          trailingYear item.table_name else none)) := by
  have hI : Interface.categorizeItem item =
      { table_name := item.table_name
        description := item.description
        displayName := rawDisplayName item.table_name
        type := patentTypeOf item.table_name
        category := if (contentTypeOf item.table_name).isSome then contentK
                    else Interface.faCategory item.table_name
        contentType := contentTypeOf item.table_name
        year := yearOf item.table_name (contentTypeOf item.table_name) } := rfl
  have hD : DataProcessor.categorizeItem item =
      { table_name := item.table_name
        description := item.description
        displayName := rawDisplayName item.table_name
        type := patentTypeOf item.table_name
        category := if (contentTypeOf item.table_name).isSome then contentK
                    else DataProcessor.faCategory item.table_name
        contentType := contentTypeOf item.table_name
        year := yearOf item.table_name (contentTypeOf item.table_name) } := rfl
  rw [hI, hD]
  cases hc : contentTypeOf item.table_name with
  | none =>
    simp [contentTypeOf_eq_ctFirstMatch item.table_name ▸ hc, yearOf,
      interface_faCategory_ne_contentK, dataProcessor_faCategory_ne_contentK]
  | some v =>
    simp [contentTypeOf_eq_ctFirstMatch item.table_name ▸ hc, yearOf]

lemma ofNat_shift_ne_under (n : Nat) (h1 : 65 ≤ n) (h2 : n ≤ 90) :
    Char.ofNat n ≠ '_' := by
  interval_cases n <;> decide

lemma upC_ne_under (c : Char) (h : c ≠ '_') : upC c ≠ '_' := by
  unfold upC
  split_ifs with hr
  · exact ofNat_shift_ne_under _ (by omega) (by omega)
  · exact h

lemma splitU_no_under (l : Str) : ∀ w ∈ splitU l, '_' ∉ w := by
  induction l with
  | nil => simp [splitU]
  | cons c t ih =>
    intro w hw
    simp only [splitU] at hw
    cases hsp : splitU t with
    | nil => simp [hsp] at hw; simp [hw]
    | cons w0 ws =>
      rw [hsp] at hw ih
      by_cases hc : c = '_'
      · simp [hc] at hw
        rcases hw with h | h | h
        · simp [h]
        · exact ih w (h ▸ List.mem_cons_self _ _)
        · exact ih w (List.mem_cons_of_mem _ h)
      · simp [hc] at hw
        rcases hw with h | h
        · subst h
          intro hmem
          rcases List.mem_cons.mp hmem with h' | h'
          · exact hc h'.symm
          · exact ih w0 (List.mem_cons_self _ _) h'
        · exact ih w (List.mem_cons_of_mem _ h)

lemma capFirst_no_under (w : Str) (h : '_' ∉ w) : '_' ∉ capFirst w := by
  cases w with
  | nil => simp [capFirst]
  | cons c t =>
    simp only [capFirst, List.mem_cons, not_or] at h ⊢
    refine ⟨?_, h.2⟩
    intro hc
    exact upC_ne_under c (fun hce => h.1 hce.symm) hc.symm

lemma joinSp_no_under (ws : List Str) (h : ∀ w ∈ ws, '_' ∉ w) : '_' ∉ joinSp ws := by
  induction ws with
  | nil => simp [joinSp]
  | cons w ws ih =>
    cases ws with
    | nil => simpa [joinSp] using h w (List.mem_cons_self _ _)
    | cons v vs =>
      simp only [joinSp, List.mem_append, List.mem_cons, not_or]
      refine ⟨h w (List.mem_cons_self _ _), by decide, ?_⟩
      exact ih (fun u hu => h u (List.mem_cons_of_mem _ hu))

lemma replUnders_eq_self (s : Str) (h : '_' ∉ s) : replUnders s = s := by
  induction s with
  | nil => rfl
  | cons c t ih =>
    simp only [List.mem_cons, not_or] at h
    simp only [replUnders, List.map]
    rw [if_neg (fun hc => h.1 hc.symm)]
    exact congrArg _ (ih h.2)

/-- Claim C5: the display-name pipeline (the inline display-name code of
`categorizeItem` composed with `formatDisplayName` at render time) strips a
leading `g_`/`pg_` prefix, splits on underscores, capitalizes each word,
joins with single spaces, and then replaces, for each acronym in the order
PCT, WIPO, CPC, IPC, USPC, US, only its first case-insensitive occurrence
with the canonical uppercase form, without re-scanning after substitution.
(The code's final `replace(/_/g, ' ')` is a no-op: no underscore survives
the split-and-join.) -/
theorem displayName_pipeline_spec (name : Str) :
    Interface.formatDisplayName (rawDisplayName name) = claimFormat name := by
  unfold Interface.formatDisplayName rawDisplayName claimFormat
  rw [replUnders_eq_self]
  exact joinSp_no_under _ (fun w hw => by
    rcases List.mem_map.mp hw with ⟨u, hu, rfl⟩
    exact capFirst_no_under u (splitU_no_under _ u hu))

lemma contentTypeOf_of_no_pattern (n : Str) (h : matchesContentPat n = false) :
    contentTypeOf n = none := by
  simp only [matchesContentPat, Bool.or_eq_false_iff] at h
  obtain ⟨⟨⟨⟨h1, h2⟩, h3⟩, h4⟩, h5⟩ := h
  simp [contentTypeOf, h1, h2, h3, h4, h5]

lemma dataProcessor_faCategory_eq (n : Str) :
    DataProcessor.faCategory n =
      (if Interface.faCategory n = otherK then generalK else Interface.faCategory n) := by
  unfold DataProcessor.faCategory Interface.faCategory
  by_cases h1 : (strIncludes n (str "inventor") || strIncludes n (str "attorney") ||
      strIncludes n (str "lawyer") || strIncludes n (str "assignee") ||
      strIncludes n (str "applicant") || strIncludes n (str "examiner")) = true
  · simp [h1]; decide
  · simp only [h1]
    by_cases h2 : (strIncludes n (str "location") || strIncludes n (str "geography")) = true
    · simp [h1, h2]; decide
    · by_cases h3 : (strIncludes n (str "cpc") || strIncludes n (str "uspc") ||
          strIncludes n (str "ipc") || strIncludes n (str "wipo")) = true
      · simp [h1, h2, h3]; decide
      · by_cases h4 : (strIncludes n (str "citation") || strIncludes n (str "reference")) = true
        · simp [h1, h2, h3, h4]; decide
        · by_cases h5 : (strIncludes n (str "gov_interest") || strIncludes n (str "federal")) = true
          · simp [h1, h2, h3, h4, h5]; decide
          · by_cases h6 : (strIncludes n (str "priority") || strIncludes n (str "rel_") ||
                strIncludes n (str "term") || strIncludes n (str "pct")) = true
            · simp [h1, h2, h3, h4, h5, h6]; decide
            · by_cases h7 : (strIncludes n (str "persistent") || strIncludes n (str "crosswalk") ||
                  strIncludes n (str "granted_pgpubs")) = true
              · simp [h1, h2, h3, h4, h5, h6, h7]; decide
              · by_cases h8 : (strIncludes n (str "figures") || strIncludes n (str "botanic")) = true
                · simp [h1, h2, h3, h4, h5, h6, h7, h8]; decide
                · by_cases h9 : (strIncludes n (str "patent") ||
                      strIncludes n (str "application")) = true
                  · simp [h1, h2, h3, h4, h5, h6, h7, h8, h9]
                  · simp [h1, h2, h3, h4, h5, h6, h7, h8, h9]

/-- Claim C10, counterexample: on the descriptor with identifier `zz`
(which matches no content pattern and no functional-area rule), the two
`categorizeItem` functions disagree on the category, so they do not return
equal classifications. -/
theorem categorizeItem_copies_disagree :
    (DataProcessor.categorizeItem ⟨str "zz", []⟩).category ≠
      (Interface.categorizeItem ⟨str "zz", []⟩).category := by decide

/-- Claim C10, amended: for every descriptor the two `categorizeItem`
functions agree on `displayName`, `type`, `contentType` and `year`; their
categories also agree except exactly when the component's classifier yields
`Other`, where `dataProcessor.js` (whose chain ends in `else → General`,
with no `patent`/`application` rule and no `Other` fallback) yields
`General` instead. -/
theorem categorizeItem_copies_relation (item : RawItem) :
    DataProcessor.categorizeItem item =
      { Interface.categorizeItem item with
        category := if (Interface.categorizeItem item).category = otherK then generalK
                    else (Interface.categorizeItem item).category } := by
  show ClassifiedItem.mk _ _ _ _ _ _ _ = _
  simp only [DataProcessor.categorizeItem, Interface.categorizeItem]
  by_cases hc : (contentTypeOf item.table_name).isSome
  · simp [hc]; decide
  · simp only [hc, if_false, Bool.false_eq_true]
    simp [dataProcessor_faCategory_eq]

/-- Claim C1, counterexample: the identifier `zz` matches no content-type
pattern, none of rules 1–8, and contains neither `patent` nor
`application`, so the claim requires category `Other`; but the classifier
of `dataProcessor.js` assigns `General` to it. -/
theorem general_other_fallback_cex :
    matchesContentPat (str "zz") = false ∧ matchesFA18 (str "zz") = false ∧
    strIncludes (str "zz") (str "patent") = false ∧
    strIncludes (str "zz") (str "application") = false ∧
    (DataProcessor.categorizeItem ⟨str "zz", []⟩).category ≠ otherK := by decide

/-- Claim C1, amended: for a descriptor matching no content-type pattern
and none of rules 1–8, the component's classifier assigns `General` when
the identifier contains `patent` or `application` and `Other` otherwise,
while the `dataProcessor.js` classifier assigns `General` in every such
case (it has no `Other` fallback). -/
theorem general_other_fallback (item : RawItem)
    (hC : matchesContentPat item.table_name = false)
    (hFA : matchesFA18 item.table_name = false) :
    (Interface.categorizeItem item).category =
      (if strIncludes item.table_name (str "patent") ||
          strIncludes item.table_name (str "application") then generalK else otherK) ∧
    (DataProcessor.categorizeItem item).category = generalK := by
  have hct := contentTypeOf_of_no_pattern item.table_name hC
  simp only [matchesFA18, Bool.or_eq_false_iff] at hFA
  obtain ⟨⟨⟨⟨⟨⟨⟨h1, h2⟩, h3⟩, h4⟩, h5⟩, h6⟩, h7⟩, h8⟩ := hFA
  constructor
  · show (if (contentTypeOf item.table_name).isSome then contentK
         else Interface.faCategory item.table_name) = _
    rw [hct]
    simp [Interface.faCategory, h1, h2, h3, h4, h5, h6, h7, h8]
  · show (if (contentTypeOf item.table_name).isSome then contentK
         else DataProcessor.faCategory item.table_name) = _
    rw [hct]
    simp [DataProcessor.faCategory, h1, h2, h3, h4, h5, h6, h7, h8]

/-- Witness for `general_other_fallback` at the concrete identifier
`zz`. -/
theorem general_other_fallback_witness :
    matchesContentPat (str "zz") = false ∧ matchesFA18 (str "zz") = false ∧
    ((Interface.categorizeItem ⟨str "zz", []⟩).category =
      (if strIncludes (str "zz") (str "patent") ||
          strIncludes (str "zz") (str "application") then generalK else otherK) ∧
     (DataProcessor.categorizeItem ⟨str "zz", []⟩).category = generalK) :=
  ⟨by decide, by decide, general_other_fallback ⟨str "zz", []⟩ (by decide) (by decide)⟩

lemma orgFold_eq_filters (l : List ClassifiedItem) :
    ∀ d r m : List ClassifiedItem,
      l.foldl orgStep ⟨d, r, m⟩ =
        ⟨d ++ l.filter disP, r ++ l.filter rawP, m ++ l.filter mainP⟩ := by
  induction l with
  | nil => intro d r m; simp
  | cons x t ih =>
    intro d r m
    by_cases hnd : strIncludes x.table_name (str "_not_disambiguated") = true
    · have hstep : orgStep ⟨d, r, m⟩ x = ⟨d, r ++ [x], m⟩ := by
        simp [orgStep, hnd]
      simp only [List.foldl_cons, hstep, ih]
      simp [List.filter_cons, disP, rawP, mainP, hnd]
    · by_cases hd : strIncludes x.table_name (str "_disambiguated") = true
      · have hstep : orgStep ⟨d, r, m⟩ x = ⟨d ++ [x], r, m⟩ := by
          simp [orgStep, hnd, hd]
        simp only [List.foldl_cons, hstep, ih]
        simp [List.filter_cons, disP, rawP, mainP, hnd, hd]
      · have hstep : orgStep ⟨d, r, m⟩ x = ⟨d, r, m ++ [x]⟩ := by
          simp [orgStep, hnd, hd]
        simp only [List.foldl_cons, hstep, ih]
        simp [List.filter_cons, disP, rawP, mainP, hnd, hd]

lemma organize_eq_filters (l : List ClassifiedItem) :
    organizeByDisambiguation l = ⟨l.filter disP, l.filter rawP, l.filter mainP⟩ := by
  simpa using orgFold_eq_filters l [] [] []

/-- Claim C4: `organizeByDisambiguation` routes each item, in test order,
to the raw sub-bucket when its identifier contains `_not_disambiguated`,
else to the disambiguated sub-bucket when it contains `_disambiguated`,
else to the main sub-bucket; and `processData` replaces a People/Geography
flat bucket by the grouped bucket exactly when the disambiguated or the raw
sub-bucket is non-empty, leaving it flat when both are empty. -/
theorem disambiguation_split_spec (l : List ClassifiedItem) :
    organizeByDisambiguation l = ⟨l.filter disP, l.filter rawP, l.filter mainP⟩ ∧
    bucketize peopleK l =
      (if l.filter disP ≠ [] ∨ l.filter rawP ≠ [] then
        Bucket.grouped (l.filter disP) (l.filter rawP) (l.filter mainP)
       else Bucket.flat l) ∧
    bucketize geographyK l =
      (if l.filter disP ≠ [] ∨ l.filter rawP ≠ [] then
        Bucket.grouped (l.filter disP) (l.filter rawP) (l.filter mainP)
       else Bucket.flat l) := by
  refine ⟨organize_eq_filters l, ?_, ?_⟩ <;>
  · rcases List.eq_nil_or_concat l with rfl | ⟨t, x, rfl⟩
    · simp [bucketize]
    · rw [bucketize, if_pos ⟨by simp [peopleK, geographyK], by simp⟩,
        organize_eq_filters]

lemma flatPred_eq (k search yearFilter contentTypeFilter : Str) (item : ClassifiedItem) :
    (matchesSearch search item &&
     (if yearFilter ≠ allK ∧ k = contentK then decide (item.year = some yearFilter) else true) &&
     (if contentTypeFilter ≠ allK ∧ k = contentK then
        decide (item.contentType = some contentTypeFilter) else true)) =
    (matchesSearch search item &&
     (if k = contentK then
       (decide (yearFilter = allK) || decide (item.year = some yearFilter)) &&
       (decide (contentTypeFilter = allK) || decide (item.contentType = some contentTypeFilter))
      else true)) := by
  by_cases hk : k = contentK <;> by_cases hy : yearFilter = allK <;>
    by_cases hc : contentTypeFilter = allK <;>
    simp [hk, hy, hc, Bool.and_assoc]

lemma filterCats_eq_map (al : CatList) (search yearFilter contentTypeFilter : Str) :
    filterCats al search yearFilter contentTypeFilter =
      al.map (fun e => (e.1, claimFilterBucket search yearFilter contentTypeFilter e.1 e.2)) := by
  induction al with
  | nil => rfl
  | cons e t ih =>
    obtain ⟨k, b⟩ := e
    cases b with
    | grouped d r m => simp [filterCats, claimFilterBucket, ih]
    | flat l =>
      simp only [filterCats, claimFilterBucket, List.map_cons, ih]
      refine congrArg₂ _ (congrArg _ (congrArg _ ?_)) rfl
      exact List.filter_congr (fun x _ => flatPred_eq k search yearFilter contentTypeFilter x)

/-- Claim C3: for every taxonomy, active patent type, query and facet
selections, `filterData` filters every grouped category sub-sequence-wise
by the case-insensitive text predicate only, filters every flat category by
the text predicate plus — only for the `Content` category — year and
content-type equality (each skipped for the `all` sentinel), and the
resulting view keeps the same category key sequence with every flat bucket
staying flat and every grouped bucket staying grouped. -/
theorem filterData_spec (data : Taxo) (activeTab : PatentType)
    (search yearFilter contentTypeFilter : Str) :
    filterData data activeTab search yearFilter contentTypeFilter =
      (taxoGet data activeTab).map
        (fun e => (e.1, claimFilterBucket search yearFilter contentTypeFilter e.1 e.2)) ∧
    (filterData data activeTab search yearFilter contentTypeFilter).map Prod.fst =
      (taxoGet data activeTab).map Prod.fst ∧
    (filterData data activeTab search yearFilter contentTypeFilter).map (fun e => isFlatB e.2) =
      (taxoGet data activeTab).map (fun e => isFlatB e.2) := by
  refine ⟨filterCats_eq_map _ _ _ _, ?_, ?_⟩ <;>
  · rw [filterData, filterCats_eq_map, List.map_map]
    refine List.map_congr_left (fun e _ => ?_)
    obtain ⟨k, b⟩ := e
    cases b <;> rfl

lemma matchesSearch_empty (item : ClassifiedItem) : matchesSearch [] item = true := by
  have hinf : ∀ s : Str, isInfixL [] s = true := by
    intro s; cases s <;> simp [isInfixL, isPrefL]
  simp [matchesSearch, lowStr, strIncludes, hinf]

/-- Claim C7: filtering with the empty query and both facets at the
sentinel `all` returns every category of the active patent type's taxonomy
unchanged: the filtered view holds exactly the same items as the
unfiltered taxonomy. -/
theorem filterData_identity (data : Taxo) (activeTab : PatentType) :
    filterData data activeTab [] allK allK = taxoGet data activeTab := by
  rw [filterData]
  induction taxoGet data activeTab with
  | nil => rfl
  | cons e t ih =>
    obtain ⟨k, b⟩ := e
    cases b with
    | grouped d r m =>
      simp only [filterCats, ih]
      rw [List.filter_eq_self.mpr (fun x _ => matchesSearch_empty x),
        List.filter_eq_self.mpr (fun x _ => matchesSearch_empty x),
        List.filter_eq_self.mpr (fun x _ => matchesSearch_empty x)]
    | flat l =>
      simp only [filterCats, ih]
      rw [List.filter_eq_self.mpr (fun x _ => ?_)]
      rw [matchesSearch_empty x]
      simp

lemma filter12_orderedInsert (a : Str × Nat) (l : List (Str × Nat)) :
    (List.orderedInsert catLe a l).filter (fun e => decide (catIdx e.1 = 12)) =
      (if catIdx a.1 = 12 then a :: l.filter (fun e => decide (catIdx e.1 = 12))
       else l.filter (fun e => decide (catIdx e.1 = 12))) := by
  induction l with
  | nil =>
    by_cases hP : catIdx a.1 = 12 <;> simp [List.orderedInsert, List.filter, hP]
  | cons b t ih =>
    by_cases hr : catLe a b
    · by_cases hP : catIdx a.1 = 12 <;>
        simp [List.orderedInsert, hr, List.filter_cons, hP]
    · by_cases hP : catIdx a.1 = 12
      · have hb : ¬ catIdx b.1 = 12 := by
          have : catIdx b.1 < catIdx a.1 := Nat.lt_of_not_le hr
          omega
        simp [List.orderedInsert, hr, List.filter_cons, hb, ih, hP]
      · simp [List.orderedInsert, hr, List.filter_cons, ih, hP]

lemma filter12_insertionSort (l : List (Str × Nat)) :
    (List.insertionSort catLe l).filter (fun e => decide (catIdx e.1 = 12)) =
      l.filter (fun e => decide (catIdx e.1 = 12)) := by
  induction l with
  | nil => rfl
  | cons a t ih =>
    rw [List.insertionSort, filter12_orderedInsert, ih, List.filter_cons]
    by_cases hP : catIdx a.1 = 12 <;> simp [hP]

/-- Claim C8: the ordered category-count list contains exactly the
categories of the view with nonzero count (flat count = array length,
grouped count = sum of the three sub-array lengths), is sorted by the fixed
priority key (so listed categories follow the priority sequence, `Content`
— priority index 11 — comes after every other listed category, and
categories absent from the priority list, key 12, come after all listed
ones), and the unlisted categories keep their relative encounter order. -/
theorem categories_with_counts_spec (filteredData : CatList) :
    List.Perm (getCategoriesWithCounts filteredData)
      (((filteredData.map (fun e => (e.1, bucketCount e.2))).filter
          (fun e => decide (0 < e.2)))) ∧
    List.Pairwise catLe (getCategoriesWithCounts filteredData) ∧
    (getCategoriesWithCounts filteredData).filter (fun e => decide (catIdx e.1 = 12)) =
      ((filteredData.map (fun e => (e.1, bucketCount e.2))).filter
          (fun e => decide (0 < e.2))).filter (fun e => decide (catIdx e.1 = 12)) ∧
    (∀ p : Str × Nat,
      p ∈ getCategoriesWithCounts filteredData ↔
        p ∈ filteredData.map (fun e => (e.1, bucketCount e.2)) ∧ 0 < p.2) := by
  refine ⟨List.perm_insertionSort catLe _, List.sorted_insertionSort catLe _,
    filter12_insertionSort _, fun p => ?_⟩
  exact Iff.trans (List.mem_insertionSort catLe)
    (Iff.trans List.mem_filter (and_congr_right fun _ => by rw [decide_eq_true_eq]))

lemma digitV_le_9 (c : Char) (h : isDigitC c = true) : digitV c ≤ 9 := by
  simp only [isDigitC, Bool.and_eq_true, decide_eq_true_eq] at h
  unfold digitV
  omega

lemma natVal_lt (l : Str) : l.all isDigitC = true → natVal l < 10 ^ l.length := by
  induction l with
  | nil => intro _; simp [natVal]
  | cons c t ih =>
    intro h
    rw [List.all_cons, Bool.and_eq_true] at h
    have hc := digitV_le_9 c h.1
    have ht := ih h.2
    have h2 : (digitV c + 1) * 10 ^ t.length ≤ 10 * 10 ^ t.length :=
      Nat.mul_le_mul_right _ (by omega)
    rw [Nat.succ_mul] at h2
    simp only [natVal, List.length_cons, pow_succ]
    omega

lemma natVal_inj : ∀ a b : Str, a.length = b.length → a.all isDigitC = true →
    b.all isDigitC = true → natVal a = natVal b → a = b := by
  intro a
  induction a with
  | nil =>
    intro b hlen _ _ _
    cases b with
    | nil => rfl
    | cons _ _ => simp at hlen
  | cons c t ih =>
    intro b hlen ha hb hv
    cases b with
    | nil => simp at hlen
    | cons d u =>
      rw [List.length_cons, List.length_cons] at hlen
      have hlu : t.length = u.length := by omega
      rw [List.all_cons, Bool.and_eq_true] at ha hb
      have hta : natVal t < 10 ^ u.length := hlu ▸ natVal_lt t ha.2
      have htb : natVal u < 10 ^ u.length := natVal_lt u hb.2
      simp only [natVal] at hv
      rw [hlu] at hv
      have hdc : digitV c = digitV d := by
        by_contra hne
        rcases Nat.lt_or_ge (digitV c) (digitV d) with h | h
        · have h2 : (digitV c + 1) * 10 ^ u.length ≤ digitV d * 10 ^ u.length :=
            Nat.mul_le_mul_right _ h
          rw [Nat.succ_mul] at h2
          omega
        · have h1 : digitV d + 1 ≤ digitV c := by omega
          have h2 : (digitV d + 1) * 10 ^ u.length ≤ digitV c * 10 ^ u.length :=
            Nat.mul_le_mul_right _ h1
          rw [Nat.succ_mul] at h2
          omega
      have hrange_c : 48 ≤ c.toNat ∧ c.toNat ≤ 57 := by
        simpa only [isDigitC, Bool.and_eq_true, decide_eq_true_eq] using ha.1
      have hrange_d : 48 ≤ d.toNat ∧ d.toNat ≤ 57 := by
        simpa only [isDigitC, Bool.and_eq_true, decide_eq_true_eq] using hb.1
      have hnat : c.toNat = d.toNat := by
        unfold digitV at hdc
        omega
      have hcd : c = d := by
        calc c = Char.ofNat c.toNat := (Char.ofNat_toNat c).symm
          _ = Char.ofNat d.toNat := by rw [hnat]
          _ = d := Char.ofNat_toNat d
      have hval : natVal t = natVal u := by
        rw [hdc] at hv
        omega
      rw [hcd, ih u hlu ha.2 hb.2 hval]

lemma mem_dedupF {α : Type} [DecidableEq α] (x : α) :
    ∀ l : List α, x ∈ dedupF l ↔ x ∈ l := by
  intro l
  induction l using dedupF.induct with
  | case1 => simp [dedupF]
  | case2 a t ih =>
    by_cases hxa : x = a
    · simp [dedupF, hxa]
    · simp only [dedupF, List.mem_cons, hxa, false_or]
      rw [ih, List.mem_filter]
      simp [hxa]

lemma nodup_dedupF {α : Type} [DecidableEq α] :
    ∀ l : List α, (dedupF l).Nodup := by
  intro l
  induction l using dedupF.induct with
  | case1 => simp [dedupF]
  | case2 a t ih =>
    rw [dedupF, List.nodup_cons]
    refine ⟨fun hmem => ?_, ih⟩
    rw [mem_dedupF, List.mem_filter] at hmem
    simp at hmem


/-- Claim C9: with the content-type facet at the sentinel `all`,
`getYearsForContentType` returns exactly the set of years present in the
active patent type's `Content` bucket, sorted numerically descending
(strictly, since the set has no duplicates).  The hypotheses say that the
`Content` key holds a flat bucket (true of every taxonomy `processData`
builds) and that year fields are four-digit strings (the classifier
guarantees this). -/
theorem years_for_all_content_types (data : Taxo) (activeTab : PatentType)
    (L : List ClassifiedItem)
    (hL : lookupK contentK (taxoGet data activeTab) = some (.flat L))
    (h4 : L.all (fun item => contentYearOK item.year) = true) :
    (∀ y : Str, y ∈ getYearsForContentType data activeTab allK ↔
      ∃ item ∈ L, item.year = some y) ∧
    List.Pairwise (fun a b => natVal b < natVal a)
      (getYearsForContentType data activeTab allK) := by
  rw [List.all_eq_true] at h4
  have hres : getYearsForContentType data activeTab allK =
      sortYearsDesc (dedupF (L.filterMap (fun item =>
        match item.year with
        | some y => if y ≠ [] ∧ (allK = allK ∨ item.contentType = some allK)
                    then some y else none
        | none => none))) := by
    rw [getYearsForContentType, hL]
  have hyear4 : ∀ item ∈ L, ∀ y : Str, item.year = some y →
      y.length = 4 ∧ y.all isDigitC = true := by
    intro item hmem y hy
    have := h4 item hmem
    rw [hy] at this
    simpa only [contentYearOK, Bool.and_eq_true, decide_eq_true_eq] using this
  have hmm : ∀ y : Str, y ∈ getYearsForContentType data activeTab allK ↔
      ∃ item ∈ L, item.year = some y := by
    intro y
    rw [hres, sortYearsDesc, List.mem_insertionSort, mem_dedupF, List.mem_filterMap]
    constructor
    · rintro ⟨item, hmem, hf⟩
      refine ⟨item, hmem, ?_⟩
      cases hy : item.year with
      | none => rw [hy] at hf; simp at hf
      | some y' =>
        rw [hy] at hf
        simp only at hf
        split at hf
        · exact hf
        · simp at hf
    · rintro ⟨item, hmem, hy⟩
      refine ⟨item, hmem, ?_⟩
      rw [hy]
      have h4y := hyear4 item hmem y hy
      have hne : y ≠ [] := by
        intro hnil
        rw [hnil] at h4y
        simp at h4y
      simp [hne]
  refine ⟨hmm, ?_⟩
  have hsorted : List.Pairwise yearGe (getYearsForContentType data activeTab allK) := by
    rw [hres]
    exact List.sorted_insertionSort yearGe _
  have hnodup : List.Pairwise (fun a b : Str => a ≠ b)
      (getYearsForContentType data activeTab allK) := by
    rw [hres]
    exact ((List.perm_insertionSort yearGe _).nodup_iff).mpr (nodup_dedupF _)
  refine (hsorted.and hnodup).imp_of_mem ?_
  intro a b hma hmb hab
  obtain ⟨itema, hia, hya⟩ := (hmm a).mp hma
  obtain ⟨itemb, hib, hyb⟩ := (hmm b).mp hmb
  have h4a := hyear4 itema hia a hya
  have h4b := hyear4 itemb hib b hyb
  rcases Nat.lt_or_ge (natVal b) (natVal a) with h | h
  · exact h
  · exact absurd (natVal_inj a b (h4a.1.trans h4b.1.symm) h4a.2 h4b.2
      (Nat.le_antisymm h hab.1)) hab.2



/-- Witness for `years_for_all_content_types` at a concrete taxonomy. -/
theorem years_for_all_content_types_witness :
    lookupK contentK (taxoGet sampleTaxo .granted) = some (.flat sampleContentItems) ∧
    sampleContentItems.all (fun item => contentYearOK item.year) = true ∧
    ((∀ y : Str, y ∈ getYearsForContentType sampleTaxo .granted allK ↔
       ∃ item ∈ sampleContentItems, item.year = some y) ∧
     List.Pairwise (fun a b => natVal b < natVal a)
       (getYearsForContentType sampleTaxo .granted allK)) :=
  ⟨by decide, by decide,
   years_for_all_content_types sampleTaxo .granted sampleContentItems (by decide) (by decide)⟩



lemma flatNE_nil : flatNE [] = [] := rfl

lemma flatNE_cons_ess (l : List ClassifiedItem) (t : CatListF) :
    flatNE ((essentialsK, l) :: t) = flatNE t := by
  simp [flatNE, List.filter_cons]

lemma flatNE_cons_ne (k : Str) (l : List ClassifiedItem) (t : CatListF)
    (h : ¬ k = essentialsK) : flatNE ((k, l) :: t) = l ++ flatNE t := by
  simp [flatNE, List.filter_cons, h]

lemma flatNEB_cons_ess (b : Bucket) (t : CatList) :
    flatNEB ((essentialsK, b) :: t) = flatNEB t := by
  simp [flatNEB, List.filter_cons]

lemma flatNEB_cons_ne (k : Str) (b : Bucket) (t : CatList)
    (h : ¬ k = essentialsK) : flatNEB ((k, b) :: t) = bucketItems b ++ flatNEB t := by
  simp [flatNEB, List.filter_cons, h]

lemma perm_flatNE_insertCat (k : Str) (x : ClassifiedItem) (hk : ¬ k = essentialsK) :
    ∀ al : CatListF, List.Perm (flatNE (insertCat al k x)) (flatNE al ++ [x]) := by
  intro al
  induction al with
  | nil =>
    show List.Perm (flatNE [(k, [x])]) (flatNE [] ++ [x])
    rw [flatNE_cons_ne k [x] [] hk, flatNE_nil]
    exact List.Perm.refl _
  | cons e t ih =>
    obtain ⟨k', l⟩ := e
    by_cases hkk : k' = k
    · subst hkk
      have hins : insertCat ((k', l) :: t) k' x = (k', l ++ [x]) :: t := by
        simp [insertCat]
      rw [hins, flatNE_cons_ne k' (l ++ [x]) t hk, flatNE_cons_ne k' l t hk,
        List.append_assoc, List.append_assoc]
      exact List.Perm.append_left l List.perm_append_comm
    · have hins : insertCat ((k', l) :: t) k x = (k', l) :: insertCat t k x := by
        simp [insertCat, hkk]
      rw [hins]
      by_cases hke : k' = essentialsK
      · subst hke
        rw [flatNE_cons_ess, flatNE_cons_ess]
        exact ih
      · rw [flatNE_cons_ne k' l _ hke, flatNE_cons_ne k' l t hke, List.append_assoc]
        exact List.Perm.append_left l ih

lemma flatNE_insertCat_ess (x : ClassifiedItem) :
    ∀ al : CatListF, flatNE (insertCat al essentialsK x) = flatNE al := by
  intro al
  induction al with
  | nil =>
    show flatNE [(essentialsK, [x])] = flatNE []
    rw [flatNE_cons_ess]
  | cons e t ih =>
    obtain ⟨k', l⟩ := e
    by_cases hkk : k' = essentialsK
    · have hins : insertCat ((k', l) :: t) essentialsK x = (k', l ++ [x]) :: t := by
        simp [insertCat, hkk]
      rw [hins, hkk, flatNE_cons_ess, flatNE_cons_ess]
    · have hins : insertCat ((k', l) :: t) essentialsK x =
          (k', l) :: insertCat t essentialsK x := by
        simp [insertCat, hkk]
      rw [hins, flatNE_cons_ne k' l _ hkk, flatNE_cons_ne k' l t hkk, ih]

lemma partition_perm (l : List ClassifiedItem) :
    List.Perm (l.filter disP ++ l.filter rawP ++ l.filter mainP) l := by
  induction l with
  | nil => simp
  | cons a t ih =>
    by_cases h1 : strIncludes a.table_name (str "_not_disambiguated") = true
    · have hd : disP a = false := by simp [disP, rawP, h1]
      have hr : rawP a = true := by simp [rawP, h1]
      have hm : mainP a = false := by simp [mainP, h1]
      rw [List.filter_cons_of_neg (by simp [hd]), List.filter_cons_of_pos hr,
        List.filter_cons_of_neg (by simp [hm]), List.append_assoc, List.cons_append]
      refine List.Perm.trans List.perm_middle ?_
      rw [← List.append_assoc]
      exact ih.cons a
    · by_cases h2 : strIncludes a.table_name (str "_disambiguated") = true
      · have hd : disP a = true := by simp [disP, rawP, h1, h2]
        have hr : rawP a = false := by simp [rawP, h1]
        have hm : mainP a = false := by simp [mainP, h2]
        rw [List.filter_cons_of_pos hd, List.filter_cons_of_neg (by simp [hr]),
          List.filter_cons_of_neg (by simp [hm]), List.cons_append, List.cons_append]
        exact ih.cons a
      · have hd : disP a = false := by simp [disP, rawP, h1, h2]
        have hr : rawP a = false := by simp [rawP, h1]
        have hm : mainP a = true := by simp [mainP, h1, h2]
        rw [List.filter_cons_of_neg (by simp [hd]), List.filter_cons_of_neg (by simp [hr]),
          List.filter_cons_of_pos hm]
        exact List.Perm.trans List.perm_middle (ih.cons a)

lemma bucketize_eq (k : Str) (l : List ClassifiedItem) :
    bucketize k l =
      (if (k = peopleK ∨ k = geographyK) ∧ l ≠ [] then
        (if l.filter disP ≠ [] ∨ l.filter rawP ≠ [] then
           Bucket.grouped (l.filter disP) (l.filter rawP) (l.filter mainP)
         else Bucket.flat l)
      else Bucket.flat l) := by
  rw [bucketize, organize_eq_filters]

lemma bucketItems_bucketize (k : Str) (l : List ClassifiedItem) :
    List.Perm (bucketItems (bucketize k l)) l := by
  rw [bucketize_eq]
  split_ifs with h1 h2
  · simp only [bucketItems]
    exact partition_perm l
  · exact List.Perm.refl l
  · exact List.Perm.refl l

lemma perm_flatNEB_finalize (al : CatListF) :
    List.Perm (flatNEB (finalize al)) (flatNE al) := by
  induction al with
  | nil => exact List.Perm.refl _
  | cons e t ih =>
    obtain ⟨k, l⟩ := e
    have hfin : finalize ((k, l) :: t) = (k, bucketize k l) :: finalize t := rfl
    rw [hfin]
    by_cases hke : k = essentialsK
    · subst hke
      rw [flatNEB_cons_ess, flatNE_cons_ess]
      exact ih
    · rw [flatNEB_cons_ne k _ _ hke, flatNE_cons_ne k l t hke]
      exact List.Perm.append (bucketItems_bucketize k l) ih

lemma category_ne_ess (item : RawItem) :
    ¬ (Interface.categorizeItem item).category = essentialsK := by
  show ¬ (if (contentTypeOf item.table_name).isSome then contentK
          else Interface.faCategory item.table_name) = essentialsK
  by_cases hc : (contentTypeOf item.table_name).isSome
  · rw [if_pos hc]; decide
  · rw [if_neg hc]
    unfold Interface.faCategory
    split_ifs <;> decide

lemma t1Get_addItem_eq (acc : Taxo1) (x : ClassifiedItem) (pt : PatentType) :
    t1Get (addItem acc x) pt =
      (if x.type = pt then
        (if essentialFiles.contains x.table_name = true
         then insertCat (insertCat (t1Get acc pt) x.category x) essentialsK x
         else insertCat (t1Get acc pt) x.category x)
       else t1Get acc pt) := by
  cases hxt : x.type <;> cases pt <;> simp [addItem, t1Get, hxt]

lemma perm_flatNE_fold (pt : PatentType) :
    ∀ (items : List ClassifiedItem) (acc : Taxo1),
      (∀ x ∈ items, ¬ x.category = essentialsK) →
      List.Perm (flatNE (t1Get (items.foldl addItem acc) pt))
        (flatNE (t1Get acc pt) ++ items.filter (fun x => decide (x.type = pt))) := by
  intro items
  induction items with
  | nil => intro acc _; simp
  | cons x t ih =>
    intro acc hcat
    rw [List.foldl_cons]
    have hx : ¬ x.category = essentialsK := hcat x (List.mem_cons_self _ _)
    have ht : ∀ y ∈ t, ¬ y.category = essentialsK :=
      fun y hy => hcat y (List.mem_cons_of_mem _ hy)
    have hstep : List.Perm (flatNE (t1Get (addItem acc x) pt))
        (flatNE (t1Get acc pt) ++ (if decide (x.type = pt) = true then [x] else [])) := by
      rw [t1Get_addItem_eq]
      by_cases hxt : x.type = pt
      · have hdx : decide (x.type = pt) = true := by simp [hxt]
        rw [if_pos hxt, if_pos hdx]
        by_cases hess : essentialFiles.contains x.table_name = true
        · rw [if_pos hess, flatNE_insertCat_ess]
          exact perm_flatNE_insertCat x.category x hx (t1Get acc pt)
        · rw [if_neg hess]
          exact perm_flatNE_insertCat x.category x hx (t1Get acc pt)
      · have hdx : ¬ decide (x.type = pt) = true := by simp [hxt]
        rw [if_neg hxt, if_neg hdx, List.append_nil]
    refine (ih (addItem acc x) ht).trans ?_
    rw [List.filter_cons]
    by_cases hxt : decide (x.type = pt) = true
    · rw [if_pos hxt]
      rw [if_pos hxt] at hstep
      refine (hstep.append_right _).trans ?_
      rw [List.append_assoc, List.singleton_append]
    · rw [if_neg hxt]
      rw [if_neg hxt] at hstep
      rw [List.append_nil] at hstep
      exact hstep.append_right _

lemma processData_taxoGet (rawData : List RawItem) (pt : PatentType) :
    taxoGet (processData rawData) pt =
      finalize (t1Get (phase1 (rawData.map Interface.categorizeItem)) pt) := by
  cases pt <;> rfl

lemma bucketCount_eq_length (b : Bucket) : bucketCount b = (bucketItems b).length := by
  cases b with
  | flat l => simp [bucketCount, bucketItems]
  | grouped d r m =>
    simp only [bucketCount, bucketItems, List.length_append]

lemma perm_flatNEB_processData (rawData : List RawItem) (pt : PatentType) :
    List.Perm (flatNEB (taxoGet (processData rawData) pt))
      ((rawData.map Interface.categorizeItem).filter (fun i => decide (i.type = pt))) := by
  rw [processData_taxoGet]
  refine (perm_flatNEB_finalize _).trans ?_
  have h0 := perm_flatNE_fold pt (rawData.map Interface.categorizeItem)
    ⟨[(essentialsK, [])], [(essentialsK, [])]⟩
    (by
      intro y hy
      obtain ⟨it, _, rfl⟩ := List.mem_map.mp hy
      exact category_ne_ess it)
  have hinit : flatNE (t1Get (⟨[(essentialsK, [])], [(essentialsK, [])]⟩ : Taxo1) pt) = [] := by
    cases pt <;> (simp only [t1Get]; rw [flatNE_cons_ess, flatNE_nil])
  rw [hinit, List.nil_append] at h0
  rw [phase1]
  exact h0

/-- Claim C6: every classified item of the active patent type lands in
exactly one natural category bucket of the built taxonomy — Essentials
membership is an additional overlay, not exclusive: summing the
per-category item counts over all non-Essentials buckets gives exactly the
number of classified items of that patent type, and per-item occurrence
counts across the non-Essentials buckets equal the occurrence counts in
the classified input. -/
theorem essentials_overlay_partition (rawData : List RawItem) (pt : PatentType) :
    ((((taxoGet (processData rawData) pt).filter
        (fun e => decide (¬ e.1 = essentialsK))).map (fun e => bucketCount e.2)).sum =
      ((rawData.map Interface.categorizeItem).filter (fun i => decide (i.type = pt))).length) ∧
    (∀ y : ClassifiedItem,
      ((((taxoGet (processData rawData) pt).filter
          (fun e => decide (¬ e.1 = essentialsK))).map
            (fun e => (bucketItems e.2).count y)).sum =
        ((rawData.map Interface.categorizeItem).filter (fun i => decide (i.type = pt))).count y)) := by
  have hperm := perm_flatNEB_processData rawData pt
  constructor
  · have hsum : (((taxoGet (processData rawData) pt).filter
        (fun e => decide (¬ e.1 = essentialsK))).map (fun e => bucketCount e.2)).sum =
        (flatNEB (taxoGet (processData rawData) pt)).length := by
      rw [flatNEB, List.length_flatten, List.map_map]
      refine congrArg List.sum (List.map_congr_left fun e _ => ?_)
      exact bucketCount_eq_length e.2
    rw [hsum]
    exact hperm.length_eq
  · intro y
    have hcnt : (((taxoGet (processData rawData) pt).filter
        (fun e => decide (¬ e.1 = essentialsK))).map
          (fun e => (bucketItems e.2).count y)).sum =
        (flatNEB (taxoGet (processData rawData) pt)).count y := by
      rw [flatNEB, List.count_flatten, List.map_map]
      rfl
    rw [hcnt]
    exact hperm.count_eq y
